import Mathlib

/-! Shallow embedding of src/index.js (arena-chan-dl), a command-line tool that
downloads every image block of a remote Are.na channel. Network requests and
filesystem writes are modelled by environments of oracle functions; every
operation additionally returns the ordered list of outbound requests and
writes it performs, so that "no network activity" claims are expressible.
Console output and the startup update-notifier side channel carry no program
state and are not modelled. Within a chunk the JS code launches the block
downloads concurrently; the model records their effect lists in launch order
(the claims below only depend on which effects occur and on cross-chunk
order, never on the in-chunk interleaving). -/

namespace ArenaChanDl

/-- Page size constant: `const PER_PAGE = 100` in src/index.js. -/
def PER_PAGE : Nat := 100

/-- The `original` sub-object of a block's image descriptor: `{ url? }`.
The url may be absent (JS `undefined`). -/
structure ImageOriginal where
  url : Option String
deriving DecidableEq

/-- A block's image descriptor: `{ original?: { url? }, content_type? }`. -/
structure BlockImage where
  original : Option ImageOriginal
  content_type : Option String
deriving DecidableEq

/-- One content block as consumed by the code:
`{ id, title?, image?: { original?: { url? }, content_type? } }`. -/
structure Block where
  id : Nat
  title : Option String
  image : Option BlockImage
deriving DecidableEq

/-- The channel summary returned by `getThumb`: `{ title, length }`. -/
structure Thumb where
  title : String
  length : Nat
deriving DecidableEq

/-- One page of channel contents returned by `getPage`: `{ contents: [Block] }`. -/
structure Page where
  contents : List Block
deriving DecidableEq

/-- The per-block outcome object built by `downloadBlock`:
`{ success, reason? , filepath? }`. A skip is `{ success: false, reason: 'no-image' }`,
a download error is `{ success: false, reason: error.message }`, and a completed
download is `{ success: true, filepath }`. -/
structure DlResult where
  success : Bool
  reason : Option String
  filepath : Option String
deriving DecidableEq

/-- The final counters accumulated by `downloadChannel`: downloaded and failed. -/
structure RunSummary where
  downloaded : Nat
  failed : Nat
deriving DecidableEq

/-- An observable outbound effect: one of the two API request kinds, an image
fetch, a directory creation, or a file write. -/
inductive Event where
  | thumbFetch (slug : String)
  | pageFetch (page : Nat)
  | mkdir (path : String)
  | imageFetch (url : String)
  | fileWrite (path : String)
deriving DecidableEq

/-- True exactly on page-listing requests. -/
def Event.isPageFetch : Event → Bool
  | .pageFetch _ => true
  | _ => false

/-- The url of an image fetch, if the event is one. -/
def Event.imageUrl : Event → Option String
  | .imageFetch u => some u
  | _ => none

/-- Oracle environment for the filesystem and the image fetches used by
`downloadBlock`: each operation either succeeds or yields an error message. -/
structure FsNet where
  mkdirResult : String → Except String Unit
  fetchImage : String → Except String (List Nat)
  writeFile : String → List Nat → Except String Unit

/-- Oracle environment for the whole run: the channel summary request, the
page-listing requests, and the block-level effects. -/
structure ChannelEnv where
  thumb : Except String Thumb
  page : Nat → Except String Page
  fsnet : FsNet

/-- The guard `!block.image?.original?.url` of `downloadBlock`, i.e. the usable
original-resolution url of a block when there is one. JS truthiness makes an
empty-string url falsy, hence unusable. -/
def usableImageUrl (b : Block) : Option String :=
  match b.image with
  | none => none
  | some img =>
    match img.original with
    | none => none
    | some o =>
      match o.url with
      | none => none
      | some u => if u = "" then none else some u

/-- The declared content-type of the block's image, when present. -/
def blockContentType (b : Block) : Option String :=
  match b.image with
  | none => none
  | some img => img.content_type

/-- Splitting a character list at spaces: the word boundaries used when the
slugified title is assembled. -/
def splitOnSpace (cs : List Char) : List (List Char) :=
  cs.foldr
    (fun c acc =>
      match acc with
      | [] => [[c]]
      | w :: ws => if c = ' ' then [] :: w :: ws else (c :: w) :: ws)
    [[]]

/-- Modelled from the spec: the external slugify dependency (invoked with
options lower, strict, trim), which the spec places out of design scope, is
described as lowercasing the title, stripping characters unsafe for filenames
(everything but letters, digits and spaces), trimming whitespace, and joining
the remaining words with hyphens. -/
def slugify (s : String) : String :=
  let cleaned := (s.data.map Char.toLower).filter (fun c => c.isAlphanum || c = ' ')
  String.mk (List.intercalate ['-'] ((splitOnSpace cleaned).filter (fun w => w ≠ [])))

/-- Modelled from the spec: the external mime-types `extension` lookup, which
maps a declared content-type to a file extension and yields nothing when the
content-type is absent or unrecognized. -/
def extension : Option String → Option String
  | some "image/jpeg" => some "jpg"
  | some "image/png" => some "png"
  | some "image/gif" => some "gif"
  | some "image/webp" => some "webp"
  | _ => none

/-- The name stem `{block.id}_{title}` computed by `downloadBlock`: the title
component is the slugified title when the title is truthy (present and
nonempty), otherwise the block id. -/
def stemOf (b : Block) : String :=
  let title :=
    match b.title with
    | some t => if t = "" then toString b.id else slugify t
    | none => toString b.id
  toString b.id ++ "_" ++ title

/-- The filename `${block.id}_${title}.${ext}` computed by `downloadBlock`,
where `ext` is `extension(block.image.content_type) || 'bin'`. -/
def filenameOf (b : Block) : String :=
  stemOf b ++ ("." ++ (extension (blockContentType b)).getD "bin")

/-- `path.resolve(outputDir)`: resolution against the process working directory
is environment-dependent and observationally irrelevant to every claim; the
model keeps the directory as given. -/
def resolvePath (outputDir : String) : String := outputDir

/-- `downloadBlock(block, { slug, outputDir, index })` from src/index.js. The
`index` option only feeds console output and is omitted. Returns the effect
list of the call together with its result object; every error in the
mkdir/fetch/write steps is caught and turned into a failure result, exactly as
the `try/catch` in the source does, so the function is total. -/
def downloadBlock (fsnet : FsNet) (slug outputDir : String) (b : Block) :
    List Event × DlResult :=
  match usableImageUrl b with
  | none => ([], ⟨false, some "no-image", none⟩)
  | some url =>
    let channelDir := outputDir ++ "/" ++ slug
    match fsnet.mkdirResult channelDir with
    | .error e => ([.mkdir channelDir], ⟨false, some e, none⟩)
    | .ok _ =>
      match fsnet.fetchImage url with
      | .error e => ([.mkdir channelDir, .imageFetch url], ⟨false, some e, none⟩)
      | .ok data =>
        let filepath := channelDir ++ "/" ++ filenameOf b
        match fsnet.writeFile filepath data with
        | .error e =>
          ([.mkdir channelDir, .imageFetch url, .fileWrite filepath], ⟨false, some e, none⟩)
        | .ok _ =>
          ([.mkdir channelDir, .imageFetch url, .fileWrite filepath],
            ⟨true, none, some filepath⟩)

/-- JS `ToIntegerOrInfinity` truncation as applied by `Array.prototype.slice`
to a nonnegative index: truncation toward zero, i.e. the floor. -/
def jsTrunc (q : ℚ) : Nat := (⌊q⌋).toNat

/-- The chunking loop of `downloadChannel`:
`for (let i = 0; i < allContents.length; i += chunkSize) chunk = allContents.slice(i, i + chunkSize)`.
The loop counter is a JS number, modelled as a rational; `slice` truncates its
arguments. Fuel bounds the recursion: any chunk size of at least 1 advances the
truncated index each iteration, so `l.length` iterations always suffice; for a
chunk size below 1 the JS loop diverges, which validation makes unreachable. -/
def sliceChunksAux (cs : ℚ) (l : List Block) : Nat → ℚ → List (List Block)
  | 0, _ => []
  | fuel + 1, i =>
    if i < (l.length : ℚ) then
      (l.drop (jsTrunc i)).take (jsTrunc (i + cs) - jsTrunc i)
        :: sliceChunksAux cs l fuel (i + cs)
    else []

/-- The chunk partition produced by the loop, starting at index 0. -/
def sliceChunks (cs : ℚ) (l : List Block) : List (List Block) :=
  sliceChunksAux cs l l.length 0

/-- The same loop specialized to a natural-number index and chunk size; the
rational loop agrees with it whenever the chunk size is an integer. -/
def intChunksAux (n : Nat) (l : List Block) : Nat → Nat → List (List Block)
  | 0, _ => []
  | fuel + 1, m =>
    if m < l.length then (l.drop m).take n :: intChunksAux n l fuel (m + n) else []

/-- `Promise.all`: collect every result, failing with the first rejection. -/
def collectAll : List (Except String Page) → Except String (List Page)
  | [] => .ok []
  | .error e :: _ => .error e
  | .ok p :: rest => (collectAll rest).map (fun ps => p :: ps)

/-- `pages.flatMap(page => page.contents)`: one ordered sequence, preserving
page order and within-page order. -/
def flattenPages (pages : List Page) : List Block :=
  (pages.map Page.contents).flatten

/-- `Math.ceil(length / PER_PAGE)` on a natural total block count. -/
def totalPagesFor (len : Nat) : Nat := (len + PER_PAGE - 1) / PER_PAGE

/-- One chunk of the download loop: `Promise.allSettled(chunk.map(block => downloadBlock(...)))`.
`downloadBlock` catches its own errors, so every promise fulfills; the model
returns all effect lists (concatenated in launch order) and all results. -/
def processChunk (fsnet : FsNet) (slug outputDir : String) (chunk : List Block) :
    List Event × List DlResult :=
  let outs := chunk.map (fun b => downloadBlock fsnet slug outputDir b)
  ((outs.map Prod.fst).flatten, outs.map Prod.snd)

/-- The sequential chunk loop with its running counters: each chunk is fully
settled, its successes and failures added to the counters, before the next
chunk starts (`downloaded++` on a fulfilled successful result, `failed++`
otherwise). -/
def processChunksFrom (fsnet : FsNet) (slug outputDir : String)
    (downloaded failed : Nat) : List (List Block) → List Event × RunSummary
  | [] => ([], ⟨downloaded, failed⟩)
  | chunk :: rest =>
    let out := processChunk fsnet slug outputDir chunk
    let d := downloaded + (out.2.filter (fun r => r.success)).length
    let f := failed + (out.2.filter (fun r => !r.success)).length
    let next := processChunksFrom fsnet slug outputDir d f rest
    (out.1 ++ next.1, next.2)

/-- `downloadChannel(slug, outputDir, chunkSize)` from src/index.js: validate
the slug (a falsy or non-string slug is rejected; the model's strings make
that exactly the empty slug) and the chunk size (`chunkSize < 1 || chunkSize > 50`,
on JS numbers, modelled as rationals), then fetch the summary, stop
successfully on an empty channel, fetch all pages concurrently via
`Promise.all`, flatten, and run the chunk loop. A summary or page failure
propagates out as the run's error; block-level failures only reach the
counters. The page requests are all issued before `Promise.all` settles, so
their events appear in the trace even when one of them fails. -/
def downloadChannel (env : ChannelEnv) (slug outputDir : String) (chunkSize : ℚ) :
    List Event × Except String RunSummary :=
  if slug = "" then ([], .error "Valid channel slug is required")
  else if chunkSize < 1 ∨ chunkSize > 50 then
    ([], .error "Chunk size must be between 1 and 50")
  else
    match env.thumb with
    | .error e => ([.thumbFetch slug], .error e)
    | .ok t =>
      if t.length = 0 then ([.thumbFetch slug], .ok ⟨0, 0⟩)
      else
        let totalPages := totalPagesFor t.length
        let pageEvents := (List.range totalPages).map (fun i => Event.pageFetch (i + 1))
        match collectAll ((List.range totalPages).map (fun i => env.page (i + 1))) with
        | .error e => (Event.thumbFetch slug :: pageEvents, .error e)
        | .ok pages =>
          let allContents := flattenPages pages
          let out := processChunksFrom env.fsnet slug (resolvePath outputDir) 0 0
            (sliceChunks chunkSize allContents)
          (Event.thumbFetch slug :: pageEvents ++ out.1, .ok out.2)

/-- The per-block result objects over a list of blocks: the settled values of
the chunk promises, as produced by `downloadBlock`. -/
def resultsOf (fsnet : FsNet) (slug outputDir : String) (bs : List Block) : List DlResult :=
  bs.map (fun b => (downloadBlock fsnet slug outputDir b).2)

/-- Fixture for concrete runs: effect oracles that always succeed. -/
def okFs : FsNet := ⟨fun _ => .ok (), fun _ => .ok [0], fun _ _ => .ok ()⟩

/-- Fixture: a block carrying a usable image. -/
def imgBlock : Block := ⟨1, some "A B", some ⟨some ⟨some "http://img/1"⟩, some "image/png"⟩⟩

/-- Fixture: a block with no image descriptor. -/
def bareBlock : Block := ⟨2, none, none⟩

/-- Fixture: a second image-bearing block, untitled. -/
def imgBlock2 : Block := ⟨3, none, some ⟨some ⟨some "http://img/3"⟩, some "image/jpeg"⟩⟩

/-- Fixture: one page holding the three sample blocks. -/
def samplePage : Page := ⟨[imgBlock, bareBlock, imgBlock2]⟩

/-- Fixture: an environment serving a three-block channel on one page. -/
def sampleEnv : ChannelEnv := ⟨.ok ⟨"frog", 3⟩, fun _ => .ok samplePage, okFs⟩

/-- Fixture: an environment serving an empty channel. -/
def emptyEnv : ChannelEnv := ⟨.ok ⟨"frog", 0⟩, fun _ => .ok ⟨[]⟩, okFs⟩

/-- Fixture: a 150-block channel whose second page request fails. -/
def pageErrEnv : ChannelEnv :=
  ⟨.ok ⟨"frog", 150⟩, fun n => if n = 2 then .error "boom" else .ok ⟨[]⟩, okFs⟩

/-- Fixture: a block whose declared content-type is unrecognized. -/
def pdfBlock : Block := ⟨9, none, some ⟨some ⟨some "http://img/9"⟩, some "application/pdf"⟩⟩

/-! Helper lemmas about the chunking loop. -/

theorem jsTrunc_natCast (m : ℕ) : jsTrunc (m : ℚ) = m := by
  simp [jsTrunc]

theorem sliceChunksAux_natCast (n : ℕ) (l : List Block) :
    ∀ (fuel m : ℕ), sliceChunksAux (n : ℚ) l fuel (m : ℚ) = intChunksAux n l fuel m := by
  intro fuel
  induction fuel with
  | zero => intro m; rfl
  | succ fuel ih =>
    intro m
    have hcast : ((m : ℚ) + (n : ℚ)) = ((m + n : ℕ) : ℚ) := by push_cast; ring
    by_cases h : m < l.length
    · have hq : (m : ℚ) < (l.length : ℚ) := by exact_mod_cast h
      simp only [sliceChunksAux, intChunksAux, if_pos h, if_pos hq, hcast, ih,
        jsTrunc_natCast]
      rw [Nat.add_sub_cancel_left]
    · have hq : ¬ (m : ℚ) < (l.length : ℚ) := by exact_mod_cast h
      simp only [sliceChunksAux, intChunksAux, if_neg h, if_neg hq]

theorem intChunksAux_flatten (n : ℕ) (l : List Block) (hn : 1 ≤ n) :
    ∀ (fuel m : ℕ), l.length ≤ m + fuel →
      (intChunksAux n l fuel m).flatten = l.drop m := by
  intro fuel
  induction fuel with
  | zero =>
    intro m hm
    simp only [intChunksAux, List.flatten_nil]
    exact (List.drop_eq_nil_of_le (by omega)).symm
  | succ fuel ih =>
    intro m hm
    by_cases h : m < l.length
    · simp only [intChunksAux, if_pos h, List.flatten_cons]
      rw [ih (m + n) (by omega)]
      exact List.drop_take_append_drop l m n
    · simp only [intChunksAux, if_neg h, List.flatten_nil]
      exact (List.drop_eq_nil_of_le (by omega)).symm

theorem intChunksAux_length_le (n : ℕ) (l : List Block) :
    ∀ (fuel m : ℕ), ∀ c ∈ intChunksAux n l fuel m, c.length ≤ n := by
  intro fuel
  induction fuel with
  | zero => intro m c hc; simp [intChunksAux] at hc
  | succ fuel ih =>
    intro m c hc
    by_cases h : m < l.length
    · simp only [intChunksAux, if_pos h, List.mem_cons] at hc
      rcases hc with rfl | hc
      · exact List.length_take_le n (l.drop m)
      · exact ih (m + n) c hc
    · simp [intChunksAux, if_neg h] at hc

theorem sliceChunks_natCast (n : ℕ) (l : List Block) :
    sliceChunks (n : ℚ) l = intChunksAux n l l.length 0 := by
  have h := sliceChunksAux_natCast n l l.length 0
  simpa [sliceChunks] using h

theorem sliceChunks_flatten (n : ℕ) (hn : 1 ≤ n) (l : List Block) :
    (sliceChunks (n : ℚ) l).flatten = l := by
  rw [sliceChunks_natCast]
  simpa using intChunksAux_flatten n l hn l.length 0 (by omega)

/-! Helper lemmas about the block downloader. -/

theorem downloadBlock_skip (fsnet : FsNet) (slug outputDir : String) (b : Block)
    (h : usableImageUrl b = none) :
    downloadBlock fsnet slug outputDir b = ([], ⟨false, some "no-image", none⟩) := by
  unfold downloadBlock
  rw [h]

theorem downloadBlock_failure_reason (fsnet : FsNet) (slug outputDir : String) (b : Block) :
    (downloadBlock fsnet slug outputDir b).2.success = true ∨
      ∃ e, (downloadBlock fsnet slug outputDir b).2.reason = some e := by
  rcases h : usableImageUrl b with _ | url
  · exact Or.inr ⟨"no-image", by simp [downloadBlock, h]⟩
  · rcases hm : fsnet.mkdirResult (outputDir ++ "/" ++ slug) with e | u
    · exact Or.inr ⟨e, by simp [downloadBlock, h, hm]⟩
    · rcases hf : fsnet.fetchImage url with e | data
      · exact Or.inr ⟨e, by simp [downloadBlock, h, hm, hf]⟩
      · rcases hw : fsnet.writeFile (outputDir ++ "/" ++ slug ++ "/" ++ filenameOf b) data with e | u'
        · exact Or.inr ⟨e, by simp [downloadBlock, h, hm, hf, hw]⟩
        · exact Or.inl (by simp [downloadBlock, h, hm, hf, hw])

theorem downloadBlock_events_pageFetch (fsnet : FsNet) (slug outputDir : String) (b : Block) :
    ∀ e ∈ (downloadBlock fsnet slug outputDir b).1, e.isPageFetch = false := by
  intro ev hev
  rcases h : usableImageUrl b with _ | url
  · simp [downloadBlock, h] at hev
  · rcases hm : fsnet.mkdirResult (outputDir ++ "/" ++ slug) with e | u
    · simp [downloadBlock, h, hm] at hev
      subst hev; rfl
    · rcases hf : fsnet.fetchImage url with e | data
      · simp [downloadBlock, h, hm, hf] at hev
        rcases hev with rfl | rfl <;> rfl
      · rcases hw : fsnet.writeFile (outputDir ++ "/" ++ slug ++ "/" ++ filenameOf b) data with e | u'
        · simp [downloadBlock, h, hm, hf, hw] at hev
          rcases hev with rfl | rfl | rfl <;> rfl
        · simp [downloadBlock, h, hm, hf, hw] at hev
          rcases hev with rfl | rfl | rfl <;> rfl

theorem downloadBlock_imageFetches (fsnet : FsNet) (slug outputDir : String) (b : Block)
    (hmk : ∀ p, fsnet.mkdirResult p = .ok ()) :
    (downloadBlock fsnet slug outputDir b).1.filterMap Event.imageUrl =
      (usableImageUrl b).toList := by
  rcases h : usableImageUrl b with _ | url
  · simp [downloadBlock, h]
  · rcases hf : fsnet.fetchImage url with e | data
    · simp [downloadBlock, h, hmk, hf, Event.imageUrl]
    · rcases hw : fsnet.writeFile (outputDir ++ "/" ++ slug ++ "/" ++ filenameOf b) data with e | u'
      · simp [downloadBlock, h, hmk, hf, hw, Event.imageUrl]
      · simp [downloadBlock, h, hmk, hf, hw, Event.imageUrl]

/-! Helper lemmas about the chunk-processing loop. -/

theorem countP_add_countP_not (p : α → Bool) (l : List α) :
    l.countP p + l.countP (fun a => !p a) = l.length := by
  induction l with
  | nil => rfl
  | cons a l ih =>
    simp only [List.countP_cons, List.length_cons]
    by_cases h : p a <;> simp [h] <;> omega

theorem processChunk_results (fsnet : FsNet) (slug outputDir : String) (chunk : List Block) :
    (processChunk fsnet slug outputDir chunk).2 = resultsOf fsnet slug outputDir chunk := by
  simp [processChunk, resultsOf, List.map_map, Function.comp]

theorem processChunk_cons (fsnet : FsNet) (slug outputDir : String) (b : Block)
    (rest : List Block) :
    processChunk fsnet slug outputDir (b :: rest) =
      ((downloadBlock fsnet slug outputDir b).1 ++ (processChunk fsnet slug outputDir rest).1,
        (downloadBlock fsnet slug outputDir b).2 :: (processChunk fsnet slug outputDir rest).2) := by
  simp [processChunk]

theorem processChunksFrom_summary (fsnet : FsNet) (slug outputDir : String) :
    ∀ (chunks : List (List Block)) (d f : Nat),
      (processChunksFrom fsnet slug outputDir d f chunks).2 =
        ⟨d + (resultsOf fsnet slug outputDir chunks.flatten).countP (fun r => r.success),
          f + (resultsOf fsnet slug outputDir chunks.flatten).countP (fun r => !r.success)⟩ := by
  intro chunks
  induction chunks with
  | nil => intro d f; simp [processChunksFrom, resultsOf]
  | cons c rest ih =>
    intro d f
    simp only [processChunksFrom, ih, processChunk_results, List.flatten_cons]
    simp only [RunSummary.mk.injEq, resultsOf, List.map_append, List.countP_append,
      ← List.countP_eq_length_filter]
    omega

theorem processChunksFrom_events (fsnet : FsNet) (slug outputDir : String) :
    ∀ (chunks : List (List Block)) (d f : Nat),
      (processChunksFrom fsnet slug outputDir d f chunks).1 =
        (chunks.map (fun c => (processChunk fsnet slug outputDir c).1)).flatten := by
  intro chunks
  induction chunks with
  | nil => intro d f; simp [processChunksFrom]
  | cons c rest ih =>
    intro d f
    simp only [processChunksFrom, ih, List.map_cons, List.flatten_cons]

theorem processChunksFrom_pageFetch (fsnet : FsNet) (slug outputDir : String)
    (chunks : List (List Block)) (d f : Nat) :
    ∀ e ∈ (processChunksFrom fsnet slug outputDir d f chunks).1, e.isPageFetch = false := by
  intro e he
  rw [processChunksFrom_events] at he
  obtain ⟨l, hl, hel⟩ := List.mem_flatten.mp he
  obtain ⟨c, _, rfl⟩ := List.mem_map.mp hl
  obtain ⟨b, _, hb⟩ :=
    (by simpa [processChunk, List.map_map, Function.comp] using hel :
      ∃ a, a ∈ c ∧ e ∈ (downloadBlock fsnet slug outputDir a).1)
  exact downloadBlock_events_pageFetch fsnet slug outputDir b e hb

theorem processChunk_imageFetches (fsnet : FsNet) (slug outputDir : String)
    (hmk : ∀ p, fsnet.mkdirResult p = .ok ()) :
    ∀ chunk : List Block,
      (processChunk fsnet slug outputDir chunk).1.filterMap Event.imageUrl =
        chunk.filterMap usableImageUrl := by
  intro chunk
  induction chunk with
  | nil => simp [processChunk]
  | cons b rest ih =>
    rw [processChunk_cons]
    simp only [List.filterMap_append, ih,
      downloadBlock_imageFetches fsnet slug outputDir b hmk]
    rcases h : usableImageUrl b with _ | url <;> simp [h, List.filterMap_cons]

theorem processChunksFrom_imageFetches (fsnet : FsNet) (slug outputDir : String)
    (hmk : ∀ p, fsnet.mkdirResult p = .ok ()) :
    ∀ (chunks : List (List Block)) (d f : Nat),
      (processChunksFrom fsnet slug outputDir d f chunks).1.filterMap Event.imageUrl =
        chunks.flatten.filterMap usableImageUrl := by
  intro chunks
  induction chunks with
  | nil => intro d f; simp [processChunksFrom]
  | cons c rest ih =>
    intro d f
    simp only [processChunksFrom, List.flatten_cons, List.filterMap_append, ih,
      processChunk_imageFetches fsnet slug outputDir hmk]

/-! Helper lemmas about the page-fetch join. -/

theorem collectAll_error_of_mem :
    ∀ (xs : List (Except String Page)) (e : String),
      Except.error e ∈ xs → ∃ e', collectAll xs = .error e' := by
  intro xs
  induction xs with
  | nil => intro e h; simp at h
  | cons x rest ih =>
    intro e h
    cases x with
    | error e'' => exact ⟨e'', rfl⟩
    | ok p =>
      rcases List.mem_cons.mp h with h1 | h2
      · exact absurd h1 (by simp)
      · obtain ⟨e', he'⟩ := ih e h2
        exact ⟨e', by simp [collectAll, he', Except.map]⟩

theorem collectAll_error_mem :
    ∀ (xs : List (Except String Page)) (e : String),
      collectAll xs = .error e → Except.error e ∈ xs := by
  intro xs
  induction xs with
  | nil => intro e h; simp [collectAll] at h
  | cons x rest ih =>
    intro e h
    cases x with
    | error e'' =>
      simp only [collectAll] at h
      cases h
      exact List.mem_cons_self _ _
    | ok p =>
      simp only [collectAll] at h
      cases hr : collectAll rest with
      | error e' =>
        rw [hr] at h
        simp [Except.map] at h
        subst h
        exact List.mem_cons_of_mem _ (ih _ hr)
      | ok ps => rw [hr] at h; simp [Except.map] at h

/-! The page count is the ceiling of the block count over the page size. -/

theorem totalPagesFor_cast (len : ℕ) : (totalPagesFor len : ℤ) = ⌈(len : ℚ) / 100⌉ := by
  have h1 : totalPagesFor len = (len + 99) / 100 := by
    unfold totalPagesFor PER_PAGE
    congr 1
  set n := (len + 99) / 100 with hn
  have hd1 : 100 * n ≤ len + 99 := by omega
  have hd2 : len + 99 < 100 * n + 100 := by omega
  rw [h1]
  symm
  rw [Int.ceil_eq_iff]
  constructor
  · rw [lt_div_iff₀ (by norm_num : (0:ℚ) < 100)]
    have hq : (100 * n : ℚ) ≤ (len : ℚ) + 99 := by exact_mod_cast hd1
    push_cast
    linarith
  · rw [div_le_iff₀ (by norm_num : (0:ℚ) < 100)]
    have hd3 : len ≤ 100 * n := by omega
    have hq : (len : ℚ) ≤ (100 * n : ℚ) := by exact_mod_cast hd3
    push_cast
    push_cast at hq
    linarith

/-! Helper lemmas unfolding the main pipeline under each of its outcomes. -/

theorem nat_chunk_valid (cs : ℕ) (h1 : 1 ≤ cs) (h2 : cs ≤ 50) :
    ¬((cs : ℚ) < 1 ∨ (cs : ℚ) > 50) := by
  rw [not_or]
  constructor
  · rw [not_lt]; exact_mod_cast h1
  · rw [not_lt]; exact_mod_cast h2

theorem downloadChannel_empty (env : ChannelEnv) (slug outputDir : String) (cs : ℚ)
    (title : String) (hslug : slug ≠ "") (hv : ¬(cs < 1 ∨ cs > 50))
    (ht : env.thumb = .ok ⟨title, 0⟩) :
    downloadChannel env slug outputDir cs = ([Event.thumbFetch slug], .ok ⟨0, 0⟩) := by
  unfold downloadChannel
  rw [if_neg hslug, if_neg hv, ht]
  rfl

theorem downloadChannel_run (env : ChannelEnv) (slug outputDir : String) (cs : ℚ)
    (t : Thumb) (ps : List Page) (hslug : slug ≠ "") (hv : ¬(cs < 1 ∨ cs > 50))
    (ht : env.thumb = .ok t) (hlen : t.length ≠ 0)
    (hp : collectAll ((List.range (totalPagesFor t.length)).map (fun i => env.page (i + 1))) =
      .ok ps) :
    downloadChannel env slug outputDir cs =
      (Event.thumbFetch slug ::
          (List.range (totalPagesFor t.length)).map (fun i => Event.pageFetch (i + 1)) ++
          (processChunksFrom env.fsnet slug (resolvePath outputDir) 0 0
              (sliceChunks cs (flattenPages ps))).1,
        .ok (processChunksFrom env.fsnet slug (resolvePath outputDir) 0 0
              (sliceChunks cs (flattenPages ps))).2) := by
  unfold downloadChannel
  rw [if_neg hslug, if_neg hv, ht]
  simp only [hp, if_neg hlen]

theorem downloadChannel_pageError (env : ChannelEnv) (slug outputDir : String) (cs : ℚ)
    (t : Thumb) (e : String) (hslug : slug ≠ "") (hv : ¬(cs < 1 ∨ cs > 50))
    (ht : env.thumb = .ok t) (hlen : t.length ≠ 0)
    (hca : collectAll ((List.range (totalPagesFor t.length)).map (fun i => env.page (i + 1))) =
      .error e) :
    downloadChannel env slug outputDir cs =
      (Event.thumbFetch slug ::
          (List.range (totalPagesFor t.length)).map (fun i => Event.pageFetch (i + 1)),
        .error e) := by
  unfold downloadChannel
  rw [if_neg hslug, if_neg hv, ht]
  simp only [hca, if_neg hlen]

theorem downloadChannel_error_cases (env : ChannelEnv) (slug outputDir : String) (cs : ℚ)
    (e : String) (h : (downloadChannel env slug outputDir cs).2 = .error e) :
    slug = "" ∨ cs < 1 ∨ cs > 50 ∨ env.thumb = .error e ∨
      ∃ t, env.thumb = .ok t ∧ t.length ≠ 0 ∧
        collectAll ((List.range (totalPagesFor t.length)).map (fun i => env.page (i + 1))) =
          .error e := by
  by_cases hs : slug = ""
  · exact Or.inl hs
  by_cases hv : cs < 1 ∨ cs > 50
  · rcases hv with hv | hv
    · exact Or.inr (Or.inl hv)
    · exact Or.inr (Or.inr (Or.inl hv))
  cases ht : env.thumb with
  | error e'' =>
    unfold downloadChannel at h
    rw [if_neg hs, if_neg hv, ht] at h
    simp only [] at h
    cases h
    exact Or.inr (Or.inr (Or.inr (Or.inl rfl)))
  | ok t =>
    by_cases hlen : t.length = 0
    · unfold downloadChannel at h
      rw [if_neg hs, if_neg hv, ht] at h
      simp [hlen] at h
    · cases hca : collectAll ((List.range (totalPagesFor t.length)).map
          (fun i => env.page (i + 1))) with
      | error e' =>
        rw [downloadChannel_pageError env slug outputDir cs t e' hs hv ht hlen hca] at h
        cases h
        exact Or.inr (Or.inr (Or.inr (Or.inr ⟨t, rfl, hlen, hca⟩)))
      | ok ps =>
        rw [downloadChannel_run env slug outputDir cs t ps hs hv ht hlen hca] at h
        simp at h

/-! The claims. -/

/-- C1 counterexample: chunk size 5/2 is not an integer yet lies inside
[1, 50]; the validation `chunkSize < 1 || chunkSize > 50` accepts it, and the
run proceeds to network activity (the summary fetch appears in the trace) and
ends successfully instead of raising a fatal error before any network
activity. -/
theorem C1_counterexample :
    (¬ ∃ n : ℤ, ((5 : ℚ) / 2) = (n : ℚ)) ∧ 1 ≤ (5 : ℚ) / 2 ∧ (5 : ℚ) / 2 ≤ 50 ∧
      downloadChannel emptyEnv "frog" "." ((5 : ℚ) / 2) =
        ([Event.thumbFetch "frog"], .ok ⟨0, 0⟩) := by
  refine ⟨?_, by norm_num, by norm_num, ?_⟩
  · rintro ⟨n, hn⟩
    have h2 : (n : ℚ) * 2 = 5 := by rw [← hn]; ring
    have h3 : (n * 2 : ℤ) = 5 := by exact_mod_cast h2
    omega
  · unfold downloadChannel
    rw [if_neg (by decide), if_neg (by norm_num)]
    rfl

/-- C1 (amended): a chunk size below 1 or above 50 makes downloadChannel raise
a fatal error before any network activity — empty effect trace, error
outcome; a non-integer chunk size inside [1, 50] is, however, not rejected
(see the counterexample). -/
theorem C1_chunk_validation (env : ChannelEnv) (slug outputDir : String) (cs : ℚ)
    (h : cs < 1 ∨ cs > 50) :
    (downloadChannel env slug outputDir cs).1 = [] ∧
      ∃ e, (downloadChannel env slug outputDir cs).2 = .error e := by
  unfold downloadChannel
  by_cases hs : slug = ""
  · rw [if_pos hs]
    exact ⟨rfl, "Valid channel slug is required", rfl⟩
  · rw [if_neg hs, if_pos h]
    exact ⟨rfl, "Chunk size must be between 1 and 50", rfl⟩

/-- C1 witness: chunk size 0 is rejected with no effects performed. -/
theorem C1_chunk_validation_witness :
    ((0 : ℚ) < 1 ∨ (0 : ℚ) > 50) ∧
      (downloadChannel emptyEnv "frog" "." 0).1 = [] ∧
      ∃ e, (downloadChannel emptyEnv "frog" "." 0).2 = .error e :=
  ⟨Or.inl (by norm_num), C1_chunk_validation emptyEnv "frog" "." 0 (Or.inl (by norm_num))⟩

/-- C2: per-block errors never escape the chunk loop: every downloadBlock
outcome is either a success or carries a human-readable reason; the pipeline
outcome is a success whenever the summary and all pages are fetched, whatever
the per-block effects do; and a pipeline error can only arise from input
validation, the summary fetch, or a page fetch. -/
theorem C2_per_block_isolation :
    (∀ (fsnet : FsNet) (slug outputDir : String) (b : Block),
        (downloadBlock fsnet slug outputDir b).2.success = true ∨
          ∃ e, (downloadBlock fsnet slug outputDir b).2.reason = some e) ∧
    (∀ (env : ChannelEnv) (slug outputDir : String) (cs : ℚ) (t : Thumb) (ps : List Page),
        slug ≠ "" → ¬(cs < 1 ∨ cs > 50) → env.thumb = .ok t →
        collectAll ((List.range (totalPagesFor t.length)).map (fun i => env.page (i + 1))) =
          .ok ps →
        ∃ s, (downloadChannel env slug outputDir cs).2 = .ok s) ∧
    (∀ (env : ChannelEnv) (slug outputDir : String) (cs : ℚ) (e : String),
        (downloadChannel env slug outputDir cs).2 = .error e →
        slug = "" ∨ cs < 1 ∨ cs > 50 ∨ env.thumb = .error e ∨
          ∃ t, env.thumb = .ok t ∧ t.length ≠ 0 ∧
            collectAll
                ((List.range (totalPagesFor t.length)).map (fun i => env.page (i + 1))) =
              .error e) := by
  refine ⟨downloadBlock_failure_reason, ?_, downloadChannel_error_cases⟩
  intro env slug outputDir cs t ps hslug hv ht hp
  by_cases hlen : t.length = 0
  · obtain ⟨title, htt⟩ : ∃ title, t = ⟨title, 0⟩ := ⟨t.title, by cases t; simp_all⟩
    rw [htt] at ht
    exact ⟨⟨0, 0⟩, by rw [downloadChannel_empty env slug outputDir cs title hslug hv ht]⟩
  · exact ⟨_, by rw [downloadChannel_run env slug outputDir cs t ps hslug hv ht hlen hp]⟩

/-- C2 witness: a skipped block yields a reason, and the three-block sample
run ends in a success outcome. -/
theorem C2_per_block_isolation_witness :
    ((downloadBlock okFs "frog" "." bareBlock).2.success = true ∨
      ∃ e, (downloadBlock okFs "frog" "." bareBlock).2.reason = some e) ∧
    ∃ s, (downloadChannel sampleEnv "frog" "." 10).2 = .ok s :=
  ⟨C2_per_block_isolation.1 okFs "frog" "." bareBlock,
    C2_per_block_isolation.2.1 sampleEnv "frog" "." 10 ⟨"frog", 3⟩ [samplePage] (by decide)
      (by norm_num) rfl rfl⟩

/-- C3: for every chunk size in [1, 50] and every flattened block list, the
partition into consecutive chunks of at most chunkSize blocks is exhaustive
and exact: the chunks concatenate back to the original list — no duplicates,
no omissions, original order across chunk boundaries — and every chunk holds
at most chunkSize blocks. -/
theorem C3_chunk_partition (cs : ℕ) (l : List Block) (h1 : 1 ≤ cs) (h2 : cs ≤ 50) :
    (sliceChunks (cs : ℚ) l).flatten = l ∧
      ∀ c ∈ sliceChunks (cs : ℚ) l, c.length ≤ cs := by
  constructor
  · exact sliceChunks_flatten cs h1 l
  · intro c hc
    rw [sliceChunks_natCast] at hc
    exact intChunksAux_length_le cs l l.length 0 c hc

/-- C3 witness: the partition at chunk size 3 over the four fixture blocks. -/
theorem C3_chunk_partition_witness :
    1 ≤ 3 ∧ 3 ≤ 50 ∧
      ((sliceChunks ((3 : ℕ) : ℚ) [imgBlock, bareBlock, imgBlock2, pdfBlock]).flatten =
          [imgBlock, bareBlock, imgBlock2, pdfBlock] ∧
        ∀ c ∈ sliceChunks ((3 : ℕ) : ℚ) [imgBlock, bareBlock, imgBlock2, pdfBlock],
          c.length ≤ 3) :=
  ⟨by decide, by decide,
    C3_chunk_partition 3 [imgBlock, bareBlock, imgBlock2, pdfBlock] (by decide) (by decide)⟩

/-- C4: when any single page fetch fails (valid inputs, successful nonempty
summary), the whole run fails: the outcome is an error and the trace holds
exactly the summary fetch and the page fetches — no directory creation, image
fetch, or file write, hence no block download began. -/
theorem C4_page_failure_fatal (env : ChannelEnv) (slug outputDir : String) (cs : ℚ)
    (t : Thumb) (i : ℕ) (e : String) (hslug : slug ≠ "") (hv : ¬(cs < 1 ∨ cs > 50))
    (ht : env.thumb = .ok t) (hlen : t.length ≠ 0)
    (hi : i < totalPagesFor t.length) (he : env.page (i + 1) = .error e) :
    (∃ e', (downloadChannel env slug outputDir cs).2 = .error e') ∧
      (downloadChannel env slug outputDir cs).1 =
        Event.thumbFetch slug ::
          (List.range (totalPagesFor t.length)).map (fun j => Event.pageFetch (j + 1)) := by
  have hmem : Except.error e ∈ (List.range (totalPagesFor t.length)).map
      (fun j => env.page (j + 1)) :=
    List.mem_map.mpr ⟨i, List.mem_range.mpr hi, he⟩
  obtain ⟨e', he'⟩ := collectAll_error_of_mem _ e hmem
  rw [downloadChannel_pageError env slug outputDir cs t e' hslug hv ht hlen he']
  exact ⟨⟨e', rfl⟩, rfl⟩

/-- C4 witness: the 150-block channel whose second page request fails aborts
with only the summary fetch and the two page fetches in its trace. -/
theorem C4_page_failure_fatal_witness :
    (∃ e', (downloadChannel pageErrEnv "frog" "." 10).2 = .error e') ∧
      (downloadChannel pageErrEnv "frog" "." 10).1 =
        Event.thumbFetch "frog" ::
          (List.range (totalPagesFor 150)).map (fun j => Event.pageFetch (j + 1)) :=
  C4_page_failure_fatal pageErrEnv "frog" "." 10 ⟨"frog", 150⟩ 1 "boom" (by decide)
    (by norm_num) rfl (by decide) (by decide) rfl

/-- C5: with valid inputs and a summary reporting zero blocks, the run
performs exactly the summary fetch — zero page fetches and zero block
downloads — and terminates successfully with zero counters. -/
theorem C5_empty_channel (env : ChannelEnv) (slug outputDir : String) (cs : ℚ)
    (title : String) (hslug : slug ≠ "") (hv : ¬(cs < 1 ∨ cs > 50))
    (ht : env.thumb = .ok ⟨title, 0⟩) :
    downloadChannel env slug outputDir cs = ([Event.thumbFetch slug], .ok ⟨0, 0⟩) :=
  downloadChannel_empty env slug outputDir cs title hslug hv ht

/-- C5 witness: the empty-channel fixture run. -/
theorem C5_empty_channel_witness :
    emptyEnv.thumb = .ok ⟨"frog", 0⟩ ∧
      downloadChannel emptyEnv "frog" "." 10 = ([Event.thumbFetch "frog"], .ok ⟨0, 0⟩) :=
  ⟨rfl, C5_empty_channel emptyEnv "frog" "." 10 "frog" (by decide) (by norm_num) rfl⟩

/-- C6: for a positive total block count with all pages fetched, the trace's
page fetches are exactly pages 1..totalPages in order, their number equals
ceil(totalBlocks / 100), and — when directory creation succeeds — the image
URLs requested are exactly the usable URLs of the pages' concatenated content
lists, preserving page order and within-page order. -/
theorem C6_pagination_and_flatten (env : ChannelEnv) (slug outputDir : String) (cs : ℕ)
    (t : Thumb) (ps : List Page) (hslug : slug ≠ "") (h1 : 1 ≤ cs) (h2 : cs ≤ 50)
    (ht : env.thumb = .ok t) (hlen : t.length ≠ 0)
    (hp : collectAll ((List.range (totalPagesFor t.length)).map (fun i => env.page (i + 1))) =
      .ok ps)
    (hmk : ∀ p, env.fsnet.mkdirResult p = .ok ()) :
    (downloadChannel env slug outputDir (cs : ℚ)).1.filter Event.isPageFetch =
        (List.range (totalPagesFor t.length)).map (fun i => Event.pageFetch (i + 1)) ∧
      (((downloadChannel env slug outputDir (cs : ℚ)).1.filter Event.isPageFetch).length : ℤ) =
        ⌈(t.length : ℚ) / 100⌉ ∧
      (downloadChannel env slug outputDir (cs : ℚ)).1.filterMap Event.imageUrl =
        (flattenPages ps).filterMap usableImageUrl := by
  have hv := nat_chunk_valid cs h1 h2
  have hfilter : (downloadChannel env slug outputDir (cs : ℚ)).1.filter Event.isPageFetch =
      (List.range (totalPagesFor t.length)).map (fun i => Event.pageFetch (i + 1)) := by
    rw [downloadChannel_run env slug outputDir (cs : ℚ) t ps hslug hv ht hlen hp]
    have hblock : (processChunksFrom env.fsnet slug (resolvePath outputDir) 0 0
        (sliceChunks (cs : ℚ) (flattenPages ps))).1.filter Event.isPageFetch = [] := by
      rw [List.filter_eq_nil_iff]
      intro e he
      simp [processChunksFrom_pageFetch _ _ _ _ _ _ e he]
    have hpage : ((List.range (totalPagesFor t.length)).map
          (fun i => Event.pageFetch (i + 1))).filter Event.isPageFetch =
        (List.range (totalPagesFor t.length)).map (fun i => Event.pageFetch (i + 1)) := by
      rw [List.filter_eq_self]
      intro e he
      obtain ⟨i, _, rfl⟩ := List.mem_map.mp he
      rfl
    simp only [List.filter_cons, List.filter_append, hblock, hpage, Event.isPageFetch,
      List.append_nil, Bool.false_eq_true, if_false]
  refine ⟨hfilter, ?_, ?_⟩
  · rw [hfilter, List.length_map, List.length_range]
    exact totalPagesFor_cast t.length
  · rw [downloadChannel_run env slug outputDir (cs : ℚ) t ps hslug hv ht hlen hp]
    have hpe : ((List.range (totalPagesFor t.length)).map
          (fun i => Event.pageFetch (i + 1))).filterMap Event.imageUrl = [] := by
      rw [List.filterMap_eq_nil_iff]
      intro e he
      obtain ⟨i, _, rfl⟩ := List.mem_map.mp he
      rfl
    simp only [List.filterMap_cons, List.filterMap_append, hpe, Event.imageUrl,
      List.nil_append,
      processChunksFrom_imageFetches env.fsnet slug (resolvePath outputDir) hmk,
      sliceChunks_flatten cs h1]

/-- C6 witness: the three-block sample channel is served in one page fetch and
requests exactly its two usable image URLs in order. -/
theorem C6_pagination_and_flatten_witness :
    (downloadChannel sampleEnv "frog" "." ((10 : ℕ) : ℚ)).1.filter Event.isPageFetch =
        (List.range (totalPagesFor 3)).map (fun i => Event.pageFetch (i + 1)) ∧
      (((downloadChannel sampleEnv "frog" "." ((10 : ℕ) : ℚ)).1.filter
            Event.isPageFetch).length : ℤ) = ⌈((3 : ℕ) : ℚ) / 100⌉ ∧
      (downloadChannel sampleEnv "frog" "." ((10 : ℕ) : ℚ)).1.filterMap Event.imageUrl =
        (flattenPages [samplePage]).filterMap usableImageUrl :=
  C6_pagination_and_flatten sampleEnv "frog" "." 10 ⟨"frog", 3⟩ [samplePage] (by decide)
    (by decide) (by decide) rfl (by decide) rfl (fun _ => rfl)

/-- C7: a block lacking a usable image URL makes downloadBlock return the skip
outcome immediately — empty effect list, so no network request and no
filesystem write happen for that block. -/
theorem C7_no_image_skip (fsnet : FsNet) (slug outputDir : String) (b : Block)
    (h : usableImageUrl b = none) :
    downloadBlock fsnet slug outputDir b = ([], ⟨false, some "no-image", none⟩) :=
  downloadBlock_skip fsnet slug outputDir b h

/-- C7 witness: the skip outcome at the imageless fixture block. -/
theorem C7_no_image_skip_witness :
    usableImageUrl bareBlock = none ∧
      downloadBlock okFs "frog" "." bareBlock = ([], ⟨false, some "no-image", none⟩) :=
  ⟨rfl, C7_no_image_skip okFs "frog" "." bareBlock rfl⟩

/-- C8: filename derivation: id 42 with title "Red Sky!!" and content-type
image/jpeg yields 42_red-sky.jpg; id 7 with no title and content-type
image/png yields 7_7.png; an unrecognized content-type falls back to the
generic binary extension bin. -/
theorem C8_filename_derivation :
    filenameOf ⟨42, some "Red Sky!!", some ⟨some ⟨some "u"⟩, some "image/jpeg"⟩⟩ =
        "42_red-sky.jpg" ∧
      filenameOf ⟨7, none, some ⟨some ⟨some "u"⟩, some "image/png"⟩⟩ = "7_7.png" ∧
      ∀ b : Block, extension (blockContentType b) = none →
        filenameOf b = stemOf b ++ ".bin" := by
  refine ⟨by decide, by decide, ?_⟩
  intro b h
  unfold filenameOf
  rw [h]
  exact congrArg (fun x => stemOf b ++ x) (by decide)

/-- C8 witness: the unrecognized-content-type fixture block gets the bin
extension. -/
theorem C8_filename_derivation_witness :
    extension (blockContentType pdfBlock) = none ∧
      filenameOf pdfBlock = stemOf pdfBlock ++ ".bin" :=
  ⟨rfl, C8_filename_derivation.2.2 pdfBlock rfl⟩

/-- C9: a block without a usable image yields success = false with reason
no-image, and a completed run's counters are exactly the counts of successful
and unsuccessful per-block outcomes over the flattened block list — so every
skipped block is counted among the failed blocks of the final summary. -/
theorem C9_skip_counted_failed :
    (∀ (fsnet : FsNet) (slug outputDir : String) (b : Block), usableImageUrl b = none →
        (downloadBlock fsnet slug outputDir b).2.success = false ∧
          (downloadBlock fsnet slug outputDir b).2.reason = some "no-image") ∧
    (∀ (env : ChannelEnv) (slug outputDir : String) (cs : ℕ) (t : Thumb) (ps : List Page),
        slug ≠ "" → 1 ≤ cs → cs ≤ 50 → env.thumb = .ok t → t.length ≠ 0 →
        collectAll ((List.range (totalPagesFor t.length)).map (fun i => env.page (i + 1))) =
          .ok ps →
        (downloadChannel env slug outputDir (cs : ℚ)).2 =
          .ok ⟨(resultsOf env.fsnet slug (resolvePath outputDir) (flattenPages ps)).countP
                (fun r => r.success),
              (resultsOf env.fsnet slug (resolvePath outputDir) (flattenPages ps)).countP
                (fun r => !r.success)⟩) := by
  constructor
  · intro fsnet slug outputDir b h
    rw [downloadBlock_skip fsnet slug outputDir b h]
    exact ⟨rfl, rfl⟩
  · intro env slug outputDir cs t ps hslug h1 h2 ht hlen hp
    rw [downloadChannel_run env slug outputDir (cs : ℚ) t ps hslug
      (nat_chunk_valid cs h1 h2) ht hlen hp]
    rw [processChunksFrom_summary, sliceChunks_flatten cs h1]
    simp

/-- C9 witness: the imageless fixture block's outcome, and the sample run's
counters as outcome counts (one skip among three blocks). -/
theorem C9_skip_counted_failed_witness :
    ((downloadBlock okFs "frog" "." bareBlock).2.success = false ∧
      (downloadBlock okFs "frog" "." bareBlock).2.reason = some "no-image") ∧
    (downloadChannel sampleEnv "frog" "." ((10 : ℕ) : ℚ)).2 =
      .ok ⟨(resultsOf sampleEnv.fsnet "frog" (resolvePath ".") (flattenPages [samplePage])).countP
            (fun r => r.success),
          (resultsOf sampleEnv.fsnet "frog" (resolvePath ".") (flattenPages [samplePage])).countP
            (fun r => !r.success)⟩ :=
  ⟨C9_skip_counted_failed.1 okFs "frog" "." bareBlock rfl,
    C9_skip_counted_failed.2 sampleEnv "frog" "." 10 ⟨"frog", 3⟩ [samplePage] (by decide)
      (by decide) (by decide) rfl (by decide) rfl⟩

/-- C10: counter invariant: after the first k chunks settle, downloaded +
failed equals the number of blocks processed so far, and a completed run's
final summary satisfies downloaded + failed = length of the flattened block
list — every block lands in exactly one counter. -/
theorem C10_counter_invariant (env : ChannelEnv) (slug outputDir : String) (cs : ℕ)
    (t : Thumb) (ps : List Page) (hslug : slug ≠ "") (h1 : 1 ≤ cs) (h2 : cs ≤ 50)
    (ht : env.thumb = .ok t) (hlen : t.length ≠ 0)
    (hp : collectAll ((List.range (totalPagesFor t.length)).map (fun i => env.page (i + 1))) =
      .ok ps) :
    (∀ k : ℕ,
        (processChunksFrom env.fsnet slug (resolvePath outputDir) 0 0
            ((sliceChunks (cs : ℚ) (flattenPages ps)).take k)).2.downloaded +
          (processChunksFrom env.fsnet slug (resolvePath outputDir) 0 0
            ((sliceChunks (cs : ℚ) (flattenPages ps)).take k)).2.failed =
          (((sliceChunks (cs : ℚ) (flattenPages ps)).take k).flatten).length) ∧
    ∀ s, (downloadChannel env slug outputDir (cs : ℚ)).2 = .ok s →
      s.downloaded + s.failed = (flattenPages ps).length := by
  constructor
  · intro k
    rw [processChunksFrom_summary]
    simp only [zero_add]
    rw [countP_add_countP_not]
    simp only [resultsOf, List.length_map]
  · intro s hs
    rw [downloadChannel_run env slug outputDir (cs : ℚ) t ps hslug
      (nat_chunk_valid cs h1 h2) ht hlen hp] at hs
    cases hs
    rw [processChunksFrom_summary, sliceChunks_flatten cs h1]
    simp only [zero_add]
    rw [countP_add_countP_not]
    simp only [resultsOf, List.length_map]

/-- C10 witness: the counter invariant over the three-block sample run. -/
theorem C10_counter_invariant_witness :
    (∀ k : ℕ,
        (processChunksFrom sampleEnv.fsnet "frog" (resolvePath ".") 0 0
            ((sliceChunks ((10 : ℕ) : ℚ) (flattenPages [samplePage])).take k)).2.downloaded +
          (processChunksFrom sampleEnv.fsnet "frog" (resolvePath ".") 0 0
            ((sliceChunks ((10 : ℕ) : ℚ) (flattenPages [samplePage])).take k)).2.failed =
          (((sliceChunks ((10 : ℕ) : ℚ) (flattenPages [samplePage])).take k).flatten).length) ∧
    ∀ s, (downloadChannel sampleEnv "frog" "." ((10 : ℕ) : ℚ)).2 = .ok s →
      s.downloaded + s.failed = (flattenPages [samplePage]).length :=
  C10_counter_invariant sampleEnv "frog" "." 10 ⟨"frog", 3⟩ [samplePage] (by decide)
    (by decide) (by decide) rfl (by decide) rfl

end ArenaChanDl
